import Mathlib

/-!
Verification of the sensor-data-logger repository: a fixed-capacity
circular buffer of timestamped accelerometer samples
(src/sensor_logger.c) and a mock sample source (src/mock_sensor.c),
shallowly embedded in Lean.  The C global state (buffer, head index,
entry count) becomes an explicit record threaded through the
operations; `float` acceleration values are modelled by their exact
rational values; `printf` output is modelled as strings.
-/

namespace SensorLogger

/-- `SENSOR_LOGGER_BUFFER_SIZE` from sensor_logger.h: capacity of the ring. -/
def SENSOR_LOGGER_BUFFER_SIZE : Nat := 128

/-- Short name for the capacity, as the spec calls it `N`. -/
def N : Nat := SENSOR_LOGGER_BUFFER_SIZE

/-- `sensor_sample_t` from sensor_logger.h: one timestamped 3-axis sample.
`timestamp_ms` is a `uint32_t` (producers keep it below `2^32`); the three
`float` accelerations are modelled by their exact rational values. -/
structure sensor_sample_t where
  timestamp_ms : Nat
  acc_x : ℚ
  acc_y : ℚ
  acc_z : ℚ
deriving DecidableEq, Repr

/-- The all-zero sample, the content of a slot after `memset(..., 0, ...)`. -/
def zeroSample : sensor_sample_t := ⟨0, 0, 0, 0⟩

instance : Inhabited sensor_sample_t := ⟨zeroSample⟩

/-- The logger's global state in sensor_logger.c:
`gl_sensor_logger_buffer_U8a` (the slot contents, as a function from
slot index), `gl_sensor_logger_head_index_U32` (next write position) and
`gl_sensor_logger_entry_count_U32` (number of valid entries). -/
structure LoggerState where
  buf : Nat → sensor_sample_t
  head : Nat
  count : Nat

/-- `init_sensor_logger`: resets head and count to 0, zeroes the buffer,
returns 0.  The result does not depend on the previous global state. -/
def init_sensor_logger : LoggerState × Int :=
  ({ buf := fun _ => zeroSample, head := 0, count := 0 }, 0)

/-- The state right after `init_sensor_logger`. -/
def initLogger : LoggerState := init_sensor_logger.1

/-- `log_sensor_data`: `none` models a NULL `p_sample_ptr` (returns -1,
no mutation); otherwise writes the sample at `head`, advances `head`
modulo the capacity, and increments `count` while it is below capacity.
Returns the new global state and the C return value. -/
def log_sensor_data (st : LoggerState) (p : Option sensor_sample_t) :
    LoggerState × Int :=
  match p with
  | none => (st, -1)
  | some s =>
      ({ buf := fun j => if j = st.head then s else st.buf j,
         head := (st.head + 1) % SENSOR_LOGGER_BUFFER_SIZE,
         count := if st.count < SENSOR_LOGGER_BUFFER_SIZE then st.count + 1
                  else st.count },
       0)

/-- Appending a whole list of (non-NULL) samples in order. -/
def appendAll (st : LoggerState) (l : List sensor_sample_t) : LoggerState :=
  l.foldl (fun s x => (log_sensor_data s (some x)).1) st

/-- The start index computed by `print_log`: slot 0 when the buffer is not
yet full, otherwise the head index. -/
def startIndex (st : LoggerState) : Nat :=
  if st.count < SENSOR_LOGGER_BUFFER_SIZE then 0 else st.head

/-- The sequence of physical slot indices `print_log`'s loop visits:
`(start + i) mod SENSOR_LOGGER_BUFFER_SIZE` for `i < count`. -/
def visitedSlots (st : LoggerState) : List Nat :=
  (List.range st.count).map
    (fun i => (startIndex st + i) % SENSOR_LOGGER_BUFFER_SIZE)

/-- The buffer entries `print_log` visits, oldest to newest. -/
def visitedEntries (st : LoggerState) : List sensor_sample_t :=
  (visitedSlots st).map st.buf

/-- Round `num / den` to the nearest integer, ties to even: the rounding
`printf` applies to the exact value when producing `%.6f`. -/
def rhe (num den : Nat) : Nat :=
  let q := num / den
  let r := num % den
  if 2 * r < den then q
  else if den < 2 * r then q + 1
  else if q % 2 = 0 then q else q + 1

/-- The six fractional digits of `%.6f`: `n < 10^6` rendered zero-padded
to width 6. -/
def pad6 (n : Nat) : String :=
  String.mk [Nat.digitChar (n / 100000 % 10), Nat.digitChar (n / 10000 % 10),
             Nat.digitChar (n / 1000 % 10), Nat.digitChar (n / 100 % 10),
             Nat.digitChar (n / 10 % 10), Nat.digitChar (n % 10)]

/-- `printf`'s `%.6f` on the exact rational value `x`: optional minus sign,
integer part, a dot, then exactly six fractional digits, the value rounded
at the sixth fractional digit. -/
def fmt6 (x : ℚ) : String :=
  let n := rhe (x.num.natAbs * 1000000) x.den
  (if x.num < 0 then "-" else "") ++
    toString (n / 1000000) ++ "." ++ pad6 (n % 1000000)

/-- The line `LOG_PRINTF("%lu,%.6f,%.6f,%.6f\n", ...)` prints for one
sample. -/
def csvLine (s : sensor_sample_t) : String :=
  toString s.timestamp_ms ++ "," ++ fmt6 s.acc_x ++ "," ++ fmt6 s.acc_y ++
    "," ++ fmt6 s.acc_z ++ "\n"

/-- The list of CSV lines `print_log` emits: none when the store is empty
(early return), otherwise one line per visited entry. -/
def printedLines (st : LoggerState) : List String :=
  if st.count = 0 then []
  else (visitedEntries st).map csvLine

/-- `print_log`: returns the (unchanged) global state, the text written to
stdout, and the C return value — the accumulated character counts returned
by the successful `LOG_PRINTF` calls. -/
def print_log (st : LoggerState) : LoggerState × String × Nat :=
  (st, String.join (printedLines st), ((printedLines st).map String.length).sum)

/-- glibc RAND_MAX, the divisor in the mock sensor's normalization. -/
def RAND_MAX : Nat := 2147483647

/-- One axis value of `get_mock_sensor_data`: `(float)rand()/(float)RAND_MAX`
mapped by `* 32.0f - 16.0f`, on exact values. -/
def accOfRand (r : Nat) : ℚ :=
  ((r : ℚ) / (RAND_MAX : ℚ)) * 32 - 16

/-- `get_mock_sensor_data` from mock_sensor.c.  `clock` is the result of
`gettimeofday`: `some (sec, usec)` on success; `none` when the clock is
unavailable, in which case the C code ignores the failed return value and
keeps the zero-initialized `timeval`.  `r1 r2 r3` are the three `rand()`
results.  The timestamp computation mirrors the C casts: both operands are
truncated to `uint32_t`, combined in `unsigned long`, and the sum is
truncated back to `uint32_t`. -/
def get_mock_sensor_data (clock : Option (Nat × Nat)) (r1 r2 r3 : Nat) :
    sensor_sample_t :=
  let tv := clock.getD (0, 0)
  { timestamp_ms := ((tv.1 % 2 ^ 32) * 1000 + (tv.2 % 2 ^ 32) / 1000) % 2 ^ 32,
    acc_x := accOfRand r1,
    acc_y := accOfRand r2,
    acc_z := accOfRand r3 }

/-- States reachable from initialization by any sequence of `init` and
`append` calls (with valid or NULL sample pointers).  `init_sensor_logger`
ignores the previous state, so a mid-sequence reset reaches exactly
`initLogger` again and is covered by the base case. -/
inductive Reachable : LoggerState → Prop
  | init : Reachable initLogger
  | step (st : LoggerState) (p : Option sensor_sample_t) :
      Reachable st → Reachable (log_sensor_data st p).1

/-- The spec's start-index formula: `head` when the buffer is full,
otherwise `(head + N - count) mod N` (wraparound-safe unsigned form). -/
def specStart (st : LoggerState) : Nat :=
  if st.count = N then st.head else (st.head + N - st.count) % N

/-- The characterization of the state reached by appending the history `l`
to a fresh store: the entry count saturates at the capacity, the head is
the history length modulo the capacity, and the slot `print_log` visits at
position `i` holds the `i`-th oldest retained sample. -/
def Matches (l : List sensor_sample_t) (st : LoggerState) : Prop :=
  st.count = min l.length N ∧
  st.head = l.length % N ∧
  ∀ i, i < st.count →
    st.buf ((startIndex st + i) % N) =
      l.getD (l.length - st.count + i) zeroSample

/-- The sample with a given timestamp and zero accelerations, used by the
spec's scenario B (only the timestamps matter there). -/
def mkTsSample (t : Nat) : sensor_sample_t := ⟨t, 0, 0, 0⟩

/-- Scenario B input: 133 samples with timestamps 0..132. -/
def samples133 : List sensor_sample_t := (List.range 133).map mkTsSample

/-- Scenario A style input: exactly 128 samples with timestamps 0..127. -/
def samples128 : List sensor_sample_t := (List.range 128).map mkTsSample

/-! ### Helper lemmas -/

lemma getD_append_lt {α : Type} (l l' : List α) (d : α) (n : Nat)
    (h : n < l.length) : (l ++ l').getD n d = l.getD n d := by
  induction l generalizing n with
  | nil => simp at h
  | cons a t ih =>
      cases n with
      | zero => rfl
      | succ m => exact ih m (by simpa using h)

lemma getD_append_len {α : Type} (l : List α) (s d : α) :
    (l ++ [s]).getD l.length d = s := by
  induction l with
  | nil => rfl
  | cons a t ih => simp

lemma N_pos : 0 < N := by decide

lemma matches_init : Matches [] initLogger := by
  refine ⟨rfl, rfl, ?_⟩
  intro i hi
  simp [initLogger, init_sensor_logger] at hi

lemma log_some_buf (st : LoggerState) (s : sensor_sample_t) (j : Nat) :
    (log_sensor_data st (some s)).1.buf j =
      if j = st.head then s else st.buf j := rfl

lemma log_some_head (st : LoggerState) (s : sensor_sample_t) :
    (log_sensor_data st (some s)).1.head = (st.head + 1) % N := rfl

lemma log_some_count (st : LoggerState) (s : sensor_sample_t) :
    (log_sensor_data st (some s)).1.count =
      if st.count < N then st.count + 1 else st.count := rfl

lemma matches_step (l : List sensor_sample_t) (s : sensor_sample_t)
    (st : LoggerState) (h : Matches l st) :
    Matches (l ++ [s]) (log_sensor_data st (some s)).1 := by
  obtain ⟨hc, hh, hb⟩ := h
  have hN0 : 0 < N := N_pos
  set L := l.length with hL
  have hNB : SENSOR_LOGGER_BUFFER_SIZE = N := rfl
  have hlen : (l ++ [s]).length = L + 1 := by
    rw [List.length_append, ← hL]; rfl
  by_cases hlt : L < N
  · -- buffer not yet full: count = L, head = L, start index 0
    have hcL : st.count = L := by omega
    have hhL : st.head = L := by rw [hh, Nat.mod_eq_of_lt hlt]
    have hstart : startIndex st = 0 := by
      rw [startIndex, hNB, hcL, if_pos hlt]
    have hcnt1 : (log_sensor_data st (some s)).1.count = L + 1 := by
      rw [log_some_count, hcL, if_pos hlt]
    refine ⟨?_, ?_, ?_⟩
    · rw [hcnt1, hlen]; omega
    · rw [log_some_head, hhL, hlen]
    · intro i hi
      rw [hcnt1] at hi
      have hstart1 : startIndex (log_sensor_data st (some s)).1 = 0 := by
        rw [startIndex, hNB, hcnt1]
        by_cases h1 : L + 1 < N
        · rw [if_pos h1]
        · rw [if_neg h1, log_some_head, hhL]
          have hEQ : L + 1 = N := by omega
          rw [hEQ, Nat.mod_self]
      rw [hstart1, hcnt1, hlen]
      have e1 : (0 + i) % N = i := by
        rw [Nat.zero_add]; exact Nat.mod_eq_of_lt (by omega)
      have e2 : L + 1 - (L + 1) + i = i := by omega
      rw [e1, e2, log_some_buf]
      by_cases hiL : i = L
      · rw [if_pos (by rw [hiL, hhL]), hiL, hL]
        exact (getD_append_len l s zeroSample).symm
      · rw [if_neg (by rw [hhL]; exact hiL)]
        rw [getD_append_lt l [s] zeroSample i (by rw [← hL]; omega)]
        have hthis := hb i (by omega)
        rw [hstart, e1, hcL] at hthis
        have e3 : L - L + i = i := by omega
        rw [e3] at hthis
        exact hthis
  · -- buffer full: count stays N, new start index = advanced head
    have hLN : N ≤ L := by omega
    have hcN : st.count = N := by omega
    have hcnt1 : (log_sensor_data st (some s)).1.count = N := by
      rw [log_some_count, hcN, if_neg (lt_irrefl N)]
    refine ⟨?_, ?_, ?_⟩
    · rw [hcnt1, hlen]; omega
    · rw [log_some_head, hh, hlen, Nat.mod_add_mod]
    · intro i hi
      rw [hcnt1] at hi
      have hstart1 : startIndex (log_sensor_data st (some s)).1 =
          (L + 1) % N := by
        rw [startIndex, hNB, hcnt1, if_neg (lt_irrefl N), log_some_head, hh,
          Nat.mod_add_mod]
      rw [hstart1, hcnt1, hlen]
      set m := L % N with hm
      have hmN : m < N := by rw [hm]; exact Nat.mod_lt _ hN0
      have hslot : ((L + 1) % N + i) % N = (m + 1 + i) % N := by
        rw [Nat.mod_add_mod, hm, Nat.add_assoc (L % N) 1 i, Nat.mod_add_mod,
          ← Nat.add_assoc]
      rw [hslot, log_some_buf]
      by_cases hlast : i = N - 1
      · -- the newest entry lands on the just-overwritten slot
        have hms : (m + 1 + i) % N = m := by
          rw [hlast]
          have e : m + 1 + (N - 1) = m + N := by omega
          rw [e, Nat.add_mod_right]
          exact Nat.mod_eq_of_lt hmN
        rw [if_pos (by rw [hms, hh])]
        have e4 : L + 1 - N + i = L := by omega
        rw [e4, hL]
        exact (getD_append_len l s zeroSample).symm
      · have hiN1 : i < N - 1 := by omega
        have hne : (m + 1 + i) % N ≠ st.head := by
          rw [hh]
          by_cases hsm : m + 1 + i < N
          · rw [Nat.mod_eq_of_lt hsm]; omega
          · rw [Nat.mod_eq_sub_mod (by omega), Nat.mod_eq_of_lt (by omega)]
            omega
        rw [if_neg hne]
        have hthis := hb (i + 1) (by omega)
        have hstart : startIndex st = st.head := by
          rw [startIndex, hNB, hcN, if_neg (lt_irrefl N)]
        rw [hstart, hh] at hthis
        have e5 : m + (i + 1) = m + 1 + i := by omega
        have e6 : L - st.count + (i + 1) = L + 1 - N + i := by omega
        rw [e5, e6] at hthis
        rw [getD_append_lt l [s] zeroSample _ (by rw [← hL]; omega)]
        exact hthis

lemma appendAll_snoc (st : LoggerState) (l : List sensor_sample_t)
    (s : sensor_sample_t) :
    appendAll st (l ++ [s]) = (log_sensor_data (appendAll st l) (some s)).1 := by
  rw [appendAll, appendAll, List.foldl_append]
  rfl

lemma matches_appendAll (l : List sensor_sample_t) :
    Matches l (appendAll initLogger l) := by
  induction l using List.reverseRecOn with
  | nil => exact matches_init
  | append_singleton t s ih =>
      rw [appendAll_snoc]
      exact matches_step t s _ ih

lemma count_appendAll (l : List sensor_sample_t) :
    (appendAll initLogger l).count = min l.length N :=
  (matches_appendAll l).1

lemma head_appendAll (l : List sensor_sample_t) :
    (appendAll initLogger l).head = l.length % N :=
  (matches_appendAll l).2.1

lemma visitedEntries_appendAll (l : List sensor_sample_t) :
    visitedEntries (appendAll initLogger l) =
      l.drop (l.length - min l.length N) := by
  obtain ⟨hc, hh, hb⟩ := matches_appendAll l
  apply List.ext_getElem
  · rw [visitedEntries, visitedSlots, List.length_map, List.length_map,
      List.length_range, List.length_drop, hc]
    omega
  · intro i h1 h2
    have hi : i < (appendAll initLogger l).count := by
      rw [visitedEntries, visitedSlots, List.length_map, List.length_map,
        List.length_range] at h1
      exact h1
    have hmain := hb i hi
    have hi' : i < min l.length N := by omega
    have e : l.length - (appendAll initLogger l).count + i =
        l.length - min l.length N + i := by omega
    rw [e] at hmain
    simp only [visitedEntries, visitedSlots, List.getElem_map,
      List.getElem_range, List.getElem_drop]
    rw [← List.getD_eq_getElem l zeroSample (by omega)]
    exact hmain

lemma reachable_history (st : LoggerState) (h : Reachable st) :
    ∃ l, st = appendAll initLogger l := by
  induction h with
  | init => exact ⟨[], rfl⟩
  | step st p hr ih =>
      obtain ⟨l, rfl⟩ := ih
      cases p with
      | none => exact ⟨l, rfl⟩
      | some s => exact ⟨l ++ [s], (appendAll_snoc _ _ _).symm⟩

lemma digitChar_isDigit : ∀ d, d < 10 → (Nat.digitChar d).isDigit = true := by
  decide

/-! ### Claim theorems -/

/-- Claim C1: in every reachable store state, `print_log` visits exactly
`count` slots, in the order `(start + i) mod N` for `i < count` where
`start` is the spec's formula (`head` when full, `(head + N - count) mod N`
otherwise); the entries visited are the retained suffix of the insertion
history, oldest to newest. -/
theorem print_log_visits_oldest_to_newest (st : LoggerState)
    (h : Reachable st) :
    (visitedSlots st).length = st.count ∧
    visitedSlots st =
      (List.range st.count).map (fun i => (specStart st + i) % N) ∧
    ∃ l, st = appendAll initLogger l ∧
      visitedEntries st = l.drop (l.length - st.count) := by
  obtain ⟨l, rfl⟩ := reachable_history st h
  have hc := count_appendAll l
  refine ⟨?_, ?_, l, rfl, ?_⟩
  · rw [visitedSlots, List.length_map, List.length_range]
  · have hspec : specStart (appendAll initLogger l) =
        startIndex (appendAll initLogger l) := by
      by_cases hfull : (appendAll initLogger l).count = N
      · rw [specStart, if_pos hfull, startIndex,
          show SENSOR_LOGGER_BUFFER_SIZE = N from rfl, if_neg (by omega)]
      · have hlt : (appendAll initLogger l).count < N := by omega
        have hh := head_appendAll l
        have hlL : l.length < N := by omega
        rw [specStart, if_neg hfull, startIndex,
          show SENSOR_LOGGER_BUFFER_SIZE = N from rfl, if_pos hlt, hh,
          Nat.mod_eq_of_lt hlL, hc]
        have e : l.length + N - min l.length N = N := by omega
        rw [e, Nat.mod_self]
    rw [visitedSlots, show SENSOR_LOGGER_BUFFER_SIZE = N from rfl, hspec]
  · rw [hc]
    exact visitedEntries_appendAll l

/-- Witness for C1 at the concrete reachable state `initLogger`. -/
theorem print_log_visits_oldest_to_newest_witness :
    (visitedSlots initLogger).length = initLogger.count ∧
    visitedSlots initLogger =
      (List.range initLogger.count).map
        (fun i => (specStart initLogger + i) % N) ∧
    ∃ l, initLogger = appendAll initLogger l ∧
      visitedEntries initLogger = l.drop (l.length - initLogger.count) :=
  print_log_visits_oldest_to_newest initLogger Reachable.init

/-- Claim C2: appending `N + k` samples to a fresh store retains exactly
the last `N` in insertion order (the first `k` are no longer visited);
concretely, after the 133 samples of scenario B: count 128, head 5, oldest
retained timestamp 5, newest 132, and exactly 128 CSV lines. -/
theorem append_beyond_capacity_keeps_last :
    (∀ k : Nat, ∀ l : List sensor_sample_t, l.length = N + k →
        visitedEntries (appendAll initLogger l) = l.drop k) ∧
    (appendAll initLogger samples133).count = 128 ∧
    (appendAll initLogger samples133).head = 5 ∧
    (visitedEntries (appendAll initLogger samples133)).getD 0 zeroSample =
      mkTsSample 5 ∧
    (visitedEntries (appendAll initLogger samples133)).getD 127 zeroSample =
      mkTsSample 132 ∧
    (printedLines (appendAll initLogger samples133)).length = 128 := by
  have hgen : ∀ k : Nat, ∀ l : List sensor_sample_t, l.length = N + k →
      visitedEntries (appendAll initLogger l) = l.drop k := by
    intro k l hlen
    have hve := visitedEntries_appendAll l
    have hN0 : 0 < N := N_pos
    have e : l.length - min l.length N = k := by rw [hlen]; omega
    rw [e] at hve
    exact hve
  have hlen : samples133.length = 133 := by
    rw [samples133, List.length_map, List.length_range]
  have hcount : (appendAll initLogger samples133).count = 128 := by
    rw [count_appendAll, hlen]; decide
  have hve : visitedEntries (appendAll initLogger samples133) =
      samples133.drop 5 := hgen 5 samples133 (by rw [hlen]; decide)
  refine ⟨hgen, hcount, ?_, ?_, ?_, ?_⟩
  · rw [head_appendAll, hlen]; decide
  · rw [hve]; decide
  · rw [hve]; decide
  · rw [printedLines, hcount, if_neg (by decide), List.length_map, hve,
      List.length_drop, hlen]

/-- Witness for C2's general statement at a concrete input: exactly `N`
samples, none dropped. -/
theorem append_beyond_capacity_keeps_last_witness :
    visitedEntries (appendAll initLogger samples128) = samples128.drop 0 :=
  append_beyond_capacity_keeps_last.1 0 samples128
    (by rw [samples128, List.length_map, List.length_range]; decide)

/-- Claim C3: a successful append raises the count to
`min (count + 1) N`, and the count of a reachable state never exceeds
`N = 128`. -/
theorem append_count_saturates (st : LoggerState) (h : Reachable st)
    (s : sensor_sample_t) :
    (log_sensor_data st (some s)).1.count = min (st.count + 1) N ∧
    st.count ≤ N := by
  obtain ⟨l, rfl⟩ := reachable_history st h
  have hc := count_appendAll l
  have hle : (appendAll initLogger l).count ≤ N := by omega
  refine ⟨?_, hle⟩
  rw [log_some_count]
  split <;> omega

/-- Witness for C3 at the concrete reachable state `initLogger`. -/
theorem append_count_saturates_witness :
    (log_sensor_data initLogger (some zeroSample)).1.count =
      min (initLogger.count + 1) N ∧
    initLogger.count ≤ N :=
  append_count_saturates initLogger Reachable.init zeroSample

/-- Claim C4: `log_sensor_data` with a NULL sample pointer returns -1
(`InvalidArgument`) and leaves head, count and every buffer slot exactly
unchanged. -/
theorem log_sensor_data_null_rejected (st : LoggerState) :
    (log_sensor_data st none).2 = -1 ∧
    (log_sensor_data st none).1.head = st.head ∧
    (log_sensor_data st none).1.count = st.count ∧
    ∀ j, (log_sensor_data st none).1.buf j = st.buf j := by
  refine ⟨rfl, rfl, rfl, fun j => rfl⟩

/-- C5: on an empty store (`count = 0`) `print_log` emits nothing and
returns zero characters, and the state is untouched. -/
theorem print_log_empty (st : LoggerState) (h : st.count = 0) :
    (print_log st).2.1 = "" ∧ (print_log st).2.2 = 0 ∧
    (print_log st).1 = st := by
  refine ⟨?_, ?_, rfl⟩ <;> simp [print_log, printedLines, h, String.join]

/-- Witness for C5: the freshly initialized store is empty. -/
theorem print_log_empty_witness :
    (print_log initLogger).2.1 = "" ∧ (print_log initLogger).2.2 = 0 ∧
    (print_log initLogger).1 = initLogger :=
  print_log_empty initLogger rfl

/-- Claim C6: each stored sample is printed as one line
`timestamp,x,y,z\n`, the three float fields carrying exactly six digits
after the decimal point; the single sample of scenario C prints exactly
`"1000,1.000000,2.000000,3.000000\n"`. -/
theorem csv_line_format :
    (∀ s : sensor_sample_t, csvLine s =
        toString s.timestamp_ms ++ "," ++ fmt6 s.acc_x ++ "," ++
          fmt6 s.acc_y ++ "," ++ fmt6 s.acc_z ++ "\n") ∧
    (∀ x : ℚ, ∃ pre post : String, fmt6 x = pre ++ "." ++ post ∧
        post.length = 6 ∧ post.toList.all Char.isDigit = true) ∧
    (print_log (appendAll initLogger [⟨1000, 1, 2, 3⟩])).2.1 =
      "1000,1.000000,2.000000,3.000000\n" := by
  refine ⟨fun s => rfl, ?_, ?_⟩
  · intro x
    refine ⟨(if x.num < 0 then "-" else "") ++
        toString (rhe (x.num.natAbs * 1000000) x.den / 1000000),
      pad6 (rhe (x.num.natAbs * 1000000) x.den % 1000000), rfl, rfl, ?_⟩
    have hall : ∀ k : Nat, (Nat.digitChar (k % 10)).isDigit = true :=
      fun k => digitChar_isDigit _ (Nat.mod_lt _ (by norm_num))
    simp [pad6, String.toList, hall]
  · decide

/-- Claim C7 counterexample: with the clock unavailable,
`get_mock_sensor_data` does not fail — it returns a normal sample whose
timestamp is 0 (computed from the zero-initialized `timeval`), exactly the
silent zero-timestamp behavior the claim rules out. -/
theorem clock_unavailable_returns_sample :
    get_mock_sensor_data none 0 0 0 =
      { timestamp_ms := 0, acc_x := -16, acc_y := -16, acc_z := -16 } := by
  rw [get_mock_sensor_data]
  have ha : accOfRand 0 = -16 := by
    rw [accOfRand]
    norm_num
  rw [ha]
  norm_num

/-- Claim C7 amended: when the clock is unavailable the code silently
returns a sample with `timestamp_ms = 0`, whatever the PRNG produces. -/
theorem clock_unavailable_zero_timestamp (r1 r2 r3 : Nat) :
    (get_mock_sensor_data none r1 r2 r3).timestamp_ms = 0 := rfl

/-- Claim C8: every acceleration field produced by
`get_mock_sensor_data` lies in the closed interval [-16, +16], given that
each `rand()` result is at most `RAND_MAX`. -/
theorem acc_within_range (clock : Option (Nat × Nat)) (r1 r2 r3 : Nat)
    (h1 : r1 ≤ RAND_MAX) (h2 : r2 ≤ RAND_MAX) (h3 : r3 ≤ RAND_MAX) :
    (-16 ≤ (get_mock_sensor_data clock r1 r2 r3).acc_x ∧
      (get_mock_sensor_data clock r1 r2 r3).acc_x ≤ 16) ∧
    (-16 ≤ (get_mock_sensor_data clock r1 r2 r3).acc_y ∧
      (get_mock_sensor_data clock r1 r2 r3).acc_y ≤ 16) ∧
    (-16 ≤ (get_mock_sensor_data clock r1 r2 r3).acc_z ∧
      (get_mock_sensor_data clock r1 r2 r3).acc_z ≤ 16) := by
  have key : ∀ r : Nat, r ≤ RAND_MAX →
      -16 ≤ accOfRand r ∧ accOfRand r ≤ 16 := by
    intro r hr
    have hM : (0 : ℚ) < (RAND_MAX : ℚ) := by norm_num [RAND_MAX]
    have h0 : (0 : ℚ) ≤ (r : ℚ) / (RAND_MAX : ℚ) := by positivity
    have hle : (r : ℚ) ≤ (RAND_MAX : ℚ) := by exact_mod_cast hr
    have hone : (r : ℚ) / (RAND_MAX : ℚ) ≤ 1 := by
      rw [div_le_one hM]; exact hle
    constructor <;> rw [accOfRand] <;> nlinarith [h0, hone]
  exact ⟨key r1 h1, key r2 h2, key r3 h3⟩

/-- Witness for C8 at a concrete call: clock down, all `rand()` results 0. -/
theorem acc_within_range_witness :
    (-16 ≤ (get_mock_sensor_data none 0 0 0).acc_x ∧
      (get_mock_sensor_data none 0 0 0).acc_x ≤ 16) ∧
    (-16 ≤ (get_mock_sensor_data none 0 0 0).acc_y ∧
      (get_mock_sensor_data none 0 0 0).acc_y ≤ 16) ∧
    (-16 ≤ (get_mock_sensor_data none 0 0 0).acc_z ∧
      (get_mock_sensor_data none 0 0 0).acc_z ≤ 16) :=
  acc_within_range none 0 0 0 (by decide) (by decide) (by decide)

/-- Claim C9: `print_log` never mutates the store: head, count and every
buffer slot are the same after the call as before it. -/
theorem print_log_preserves_state (st : LoggerState) :
    (print_log st).1.head = st.head ∧
    (print_log st).1.count = st.count ∧
    ∀ j, (print_log st).1.buf j = st.buf j := by
  refine ⟨rfl, rfl, fun j => rfl⟩

/-- Claim C10: every state reachable by init/append sequences satisfies
`count < N → head = count`, and under that invariant the implementation's
start index (0 when not full) agrees with the spec formula
`(head + N - count) mod N`. -/
theorem reachable_head_eq_count (st : LoggerState) (h : Reachable st) :
    (st.count < N → st.head = st.count) ∧
    (st.count < N → startIndex st = (st.head + N - st.count) % N) := by
  obtain ⟨l, rfl⟩ := reachable_history st h
  have hc := count_appendAll l
  have hh := head_appendAll l
  have hhc : (appendAll initLogger l).count < N →
      (appendAll initLogger l).head = (appendAll initLogger l).count := by
    intro hlt
    have hlL : l.length < N := by omega
    rw [hh, hc, Nat.mod_eq_of_lt hlL]
    omega
  refine ⟨hhc, fun hlt => ?_⟩
  rw [startIndex, show SENSOR_LOGGER_BUFFER_SIZE = N from rfl, if_pos hlt,
    hhc hlt]
  have e : (appendAll initLogger l).count + N -
      (appendAll initLogger l).count = N := by omega
  rw [e, Nat.mod_self]

/-- Witness for C10 at the concrete reachable state `initLogger`. -/
theorem reachable_head_eq_count_witness :
    (initLogger.count < N → initLogger.head = initLogger.count) ∧
    (initLogger.count < N →
      startIndex initLogger = (initLogger.head + N - initLogger.count) % N) :=
  reachable_head_eq_count initLogger Reachable.init

end SensorLogger
